import Mathlib

/-!
Verification of the episode-discovery-and-acquisition pipeline in
`src/app/main.py` (a single linear Python script).

The pure helper logic of the script (filename sanitisation, FFMETADATA value
escaping, date extraction and reformatting, the episode-link regex, and the
BeautifulSoup-style element lookups) is embedded as executable Lean functions
over `String` / `List Char`.  The effectful skeleton of `main()` is embedded
as a trace-producing function over an abstract `World` that fixes the
responses of the network, the filesystem and the two external tools.

Modelling conventions:
* Python strings are `String` (internally `List Char`); `str.strip()`,
  `str.replace` with one-character patterns and character-class `re.sub`
  are embedded directly.
* Python whitespace (for `strip` and the regex class `\s`) is modelled by the
  six ASCII whitespace characters; `\d` is modelled by the ASCII digits.
* `datetime.now()` is an explicit `today : String` parameter.
* `datetime.strftime('%Y-%m-%d')` is modelled with a zero-padded four-digit
  year.
-/

/- ### Constants of the script (lines 13-21 of `main.py`) -/

/-- Listing-page URL, constant `MAIN_PAGE_URL` in the source. -/
def MAIN_PAGE_URL : String := "https://www.deutschlandfunk.de/klassik-pop-et-cetera-100.html"

/-- Base origin used to resolve root-relative hrefs, constant `BASE_URL`. -/
def BASE_URL : String := "https://www.deutschlandfunk.de"

/-- Name of the external downloader, constant `YT_DLP_EXECUTABLE`. -/
def YT_DLP_EXECUTABLE : String := "yt-dlp"

/-- Name of the external remuxer, constant `FFMPEG_EXECUTABLE`. -/
def FFMPEG_EXECUTABLE : String := "ffmpeg"

/- ### Generic Python string helpers -/

/-- The six ASCII whitespace characters, modelling the characters removed by
Python's `str.strip()` and matched by the regex class `\s`. -/
def pyIsSpace (c : Char) : Bool :=
  c = ' ' || c = '\t' || c = '\n' || c = '\r' || c = '\x0b' || c = '\x0c'

/-- Python `str.strip()` on a list of characters: drop whitespace from both
ends. -/
def pyStripL (l : List Char) : List Char :=
  (((l.dropWhile pyIsSpace).reverse.dropWhile pyIsSpace)).reverse

/-- Python `str.strip()` on a string. -/
def pyStrip (s : String) : String := (pyStripL s.toList).asString

/-- Python `str.startswith(p)`. -/
def pyStartsWith (s p : String) : Bool := p.toList.isPrefixOf s.toList

/-- Python `str.replace(c, r)` for a one-character pattern `c`: every
occurrence of `c` is replaced by `r`. -/
def pyReplaceChar (c : Char) (r : List Char) (l : List Char) : List Char :=
  l.flatMap (fun x => if x = c then r else [x])

/- ### `sanitize_filename_component` (lines 51-58) -/

/-- The character class `[\\/*?:"<>|]` of the `re.sub` in
`sanitize_filename_component` (line 56). -/
def forbiddenChar (c : Char) : Bool :=
  c = '\\' || c = '/' || c = '*' || c = '?' || c = ':' || c = '"' ||
  c = '<' || c = '>' || c = '|'

/-- A character forbidden in filename components: the regex class together
with newline and carriage return (lines 56-57). -/
def forbiddenFull (c : Char) : Bool :=
  forbiddenChar c || c = '\n' || c = '\r'

/-- The replacement phase of `sanitize_filename_component`: the character-class
`re.sub` (a per-character substitution) followed by the two one-character
`str.replace` calls, exactly as on lines 56-57. -/
def mapForbidden (l : List Char) : List Char :=
  ((l.map (fun c => if forbiddenChar c then '_' else c)).map
      (fun c => if c = '\n' then '_' else c)).map
    (fun c => if c = '\r' then '_' else c)

/-- One combined replacement step: every forbidden character becomes `'_'`. -/
def replaceForbidden (c : Char) : Char :=
  if forbiddenFull c then '_' else c

/-- `sanitize_filename_component` on a list of characters: replace the
forbidden characters, then `strip` (line 58). -/
def sanitizeL (l : List Char) : List Char := pyStripL (mapForbidden l)

/-- `sanitize_filename_component` (lines 51-58): replace each forbidden
character with `'_'`, then trim surrounding whitespace. -/
def sanitize_filename_component (s : String) : String :=
  (sanitizeL s.toList).asString

/- ### `escape_for_ffmetadata` (lines 212-214) and its reverse mapping -/

/-- `escape_for_ffmetadata` on a list of characters: the four sequential
replacements of line 214, in the source's order — backslash first, then
newline, carriage return and `=`. -/
def escapeFfmetadataL (l : List Char) : List Char :=
  pyReplaceChar '=' ['\\', '=']
    (pyReplaceChar '\r' ['\\', 'r']
      (pyReplaceChar '\n' ['\\', 'n']
        (pyReplaceChar '\\' ['\\', '\\'] l)))

/-- `escape_for_ffmetadata` (lines 212-214). -/
def escape_for_ffmetadata (s : String) : String :=
  (escapeFfmetadataL s.toList).asString

/-- The per-character code of the escaping: what a single character of the
input contributes to the escaped output. -/
def escChar (c : Char) : List Char :=
  if c = '\\' then ['\\', '\\']
  else if c = '\n' then ['\\', 'n']
  else if c = '\r' then ['\\', 'r']
  else if c = '=' then ['\\', '=']
  else [c]

/-- The fixed reverse mapping of the escaping: decode the two-character
escape sequences `\\`, `\n`, `\r`, `\=` left to right. -/
def unescapeFfmetadataL : List Char → List Char
  | [] => []
  | [c] => [c]
  | c :: d :: rest =>
    if c = '\\' then
      (if d = 'n' then '\n' else if d = 'r' then '\r' else d) ::
        unescapeFfmetadataL rest
    else c :: unescapeFfmetadataL (d :: rest)

/-- The fixed reverse mapping on strings. -/
def unescape_ffmetadata (s : String) : String :=
  (unescapeFfmetadataL s.toList).asString

/- ### Date extraction (lines 146-160) -/

/-- ASCII decimal digit, modelling the regex class `\d`. -/
def pyIsDigit (c : Char) : Bool := '0' ≤ c && c ≤ '9'

/-- Numeric value of a digit character. -/
def digitVal (c : Char) : Nat := c.toNat - '0'.toNat

/-- Attempt of the pattern `\d{2}\.\d{2}\.\d{4}` at the head of the list:
two digits, a dot, two digits, a dot, four digits. -/
def matchDateAt : List Char → Option (List Char)
  | d1 :: d2 :: '.' :: m1 :: m2 :: '.' :: y1 :: y2 :: y3 :: y4 :: _ =>
    if pyIsDigit d1 && pyIsDigit d2 && pyIsDigit m1 && pyIsDigit m2 &&
        pyIsDigit y1 && pyIsDigit y2 && pyIsDigit y3 && pyIsDigit y4 then
      some [d1, d2, '.', m1, m2, '.', y1, y2, y3, y4]
    else none
  | _ => none

/-- `re.search(r'(\d{2}\.\d{2}\.\d{4})', s)` (line 149): the leftmost
match of the date pattern, scanning positions left to right. -/
def findDdMmYyyy : List Char → Option (List Char)
  | [] => none
  | c :: rest =>
    match matchDateAt (c :: rest) with
    | some m => some m
    | none => findDdMmYyyy rest

/-- Gregorian leap year, as in Python's `datetime`. -/
def isLeapYear (y : Nat) : Bool :=
  (y % 4 = 0 && y % 100 ≠ 0) || y % 400 = 0

/-- Days in a month of a given year, as in Python's `datetime`. -/
def daysInMonth (y m : Nat) : Nat :=
  if m = 2 then (if isLeapYear y then 29 else 28)
  else if m = 4 || m = 6 || m = 9 || m = 11 then 30
  else 31

/-- A calendar date accepted by `datetime.strptime`: year between
`datetime.MINYEAR = 1` and `9999`, month `1..12`, day within the month. -/
def validDate (y m d : Nat) : Bool :=
  1 ≤ y && y ≤ 9999 && 1 ≤ m && m ≤ 12 && 1 ≤ d && d ≤ daysInMonth y m

/-- `datetime.strptime(s, '%d.%m.%Y')` (line 153) on the ten-character
`dd.mm.yyyy` strings produced by the regex above: read the three numbers and
validate them as a calendar date; `none` models the `ValueError` caught on
line 155. -/
def strptime_dmY : List Char → Option (Nat × Nat × Nat)
  | [d1, d2, '.', m1, m2, '.', y1, y2, y3, y4] =>
    if pyIsDigit d1 && pyIsDigit d2 && pyIsDigit m1 && pyIsDigit m2 &&
        pyIsDigit y1 && pyIsDigit y2 && pyIsDigit y3 && pyIsDigit y4 then
      let d := 10 * digitVal d1 + digitVal d2
      let m := 10 * digitVal m1 + digitVal m2
      let y := 1000 * digitVal y1 + 100 * digitVal y2 + 10 * digitVal y3 +
        digitVal y4
      if validDate y m d then some (y, m, d) else none
    else none
  | _ => none

/-- Zero-pad the decimal representation of `n` to at least `w` digits. -/
def padNat (w n : Nat) : String :=
  let s := toString n
  (List.replicate (w - s.length) '0').asString ++ s

/-- `parsed_date.strftime('%Y-%m-%d')` (line 154), with a zero-padded
four-digit year. -/
def strftime_Ymd (d : Nat × Nat × Nat) : String :=
  padNat 4 d.1 ++ "-" ++ padNat 2 d.2.1 ++ "-" ++ padNat 2 d.2.2

/-- Bool test used only to state claims: does the text contain anywhere a
`dd.mm.yyyy` substring that parses as a valid calendar date? -/
def containsValidDdMmYyyy (l : List Char) : Bool :=
  l.tails.any (fun t => ((matchDateAt t).bind strptime_dmY).isSome)

/- ### A model of the parsed HTML documents -/

mutual
/-- A node of the parsed HTML document, modelling the BeautifulSoup tree:
an element with tag name, attributes and children, or a text node. -/
inductive HNode where
  | elem (tag : String) (attrs : List (String × String)) (children : HForest)
  | txt (s : String)
/-- A forest of document nodes (the children of an element, or a whole
soup), in first-order form so that the document functions are structurally
recursive. -/
inductive HForest where
  | nil
  | cons (hd : HNode) (tl : HForest)
end

/-- Build a forest from a list of nodes. -/
def HForest.ofList : List HNode → HForest
  | [] => HForest.nil
  | n :: t => HForest.cons n (HForest.ofList t)

/-- Attributes of a node (empty for text nodes). -/
def HNode.attrsOf : HNode → List (String × String)
  | .elem _ a _ => a
  | .txt _ => []

/-- Children of a node (empty for text nodes). -/
def HNode.childrenOf : HNode → HForest
  | .elem _ _ c => c
  | .txt _ => HForest.nil

/-- Attribute lookup, modelling BeautifulSoup's `tag.get(name)` /
`tag[name]`. -/
def getAttr (attrs : List (String × String)) (name : String) : Option String :=
  (attrs.find? (fun p => p.1 = name)).map (fun p => p.2)

/-- Helper of `splitWs`: `cur` is the reversed current word. -/
def splitWsAux (cur : List Char) : List Char → List (List Char)
  | [] => if cur.isEmpty then [] else [cur.reverse]
  | c :: rest =>
    if pyIsSpace c then
      if cur.isEmpty then splitWsAux [] rest
      else cur.reverse :: splitWsAux [] rest
    else splitWsAux (c :: cur) rest

/-- Split a string on runs of whitespace, dropping empty pieces — how
BeautifulSoup turns a `class` attribute into a class list. -/
def splitWs (l : List Char) : List (List Char) := splitWsAux [] l

/-- BeautifulSoup's `class_=cls` matcher: the `class` attribute, split on
whitespace, contains `cls`. -/
def hasClass (attrs : List (String × String)) (cls : String) : Bool :=
  match getAttr attrs "class" with
  | some v => (splitWs v.toList).contains cls.toList
  | none => false

mutual
/-- First match of `p` in the subtree of one node (the node itself, then
its descendants in document pre-order). -/
def findNode (p : HNode → Bool) : HNode → Option HNode
  | HNode.txt s => if p (HNode.txt s) then some (HNode.txt s) else none
  | HNode.elem t a c =>
    if p (HNode.elem t a c) then some (HNode.elem t a c) else findNodeF p c
/-- First node (in document pre-order) of a forest satisfying `p`,
modelling BeautifulSoup's `find` run on a soup or on a tag's descendants. -/
def findNodeF (p : HNode → Bool) : HForest → Option HNode
  | HForest.nil => none
  | HForest.cons n rest =>
    match findNode p n with
    | some r => some r
    | none => findNodeF p rest
end

mutual
/-- Text of one node, modelling BeautifulSoup's `.text`. -/
def HNode.textOf : HNode → String
  | .txt s => s
  | .elem _ _ c => forestText c
/-- Concatenated text of a forest. -/
def forestText : HForest → String
  | HForest.nil => ""
  | HForest.cons n rest => n.textOf ++ forestText rest
end

/- ### Episode-link extraction (lines 87-116) -/

/-- The literal head of the primary regex
`<article class="b-article-teaser.*?<a href="([^"]+)"` (line 91). -/
def articleLit : List Char := "<article class=\"b-article-teaser".toList

/-- The literal anchor part of the primary regex. -/
def anchorLit : List Char := "<a href=\"".toList

/-- Attempt of `<a href="([^"]+)"` at the head of the list: the anchor
literal, a non-empty run of non-quote characters, and the closing quote;
returns the captured run. -/
def matchAnchorAt (l : List Char) : Option (List Char) :=
  if anchorLit.isPrefixOf l then
    let rest := l.drop anchorLit.length
    let run := rest.takeWhile (fun c => c ≠ '"')
    match rest.drop run.length with
    | '"' :: _ => if run.isEmpty then none else some run
    | _ => none
  else none

/-- Scan for the first position where `<a href="([^"]+)"` matches — the
behaviour of the lazy `.*?` gap of the primary regex under backtracking. -/
def findAnchorFrom : List Char → Option (List Char)
  | [] => none
  | c :: rest =>
    match matchAnchorAt (c :: rest) with
    | some r => some r
    | none => findAnchorFrom rest

/-- `re.search(r'<article class="b-article-teaser.*?<a href="([^"]+)"',
html, re.DOTALL)` (line 91): at the leftmost position where the article
literal occurs and is followed (anywhere later, `re.DOTALL`) by a complete
anchor part, capture that anchor's href. -/
def findTeaserHrefL : List Char → Option (List Char)
  | [] => none
  | c :: rest =>
    if articleLit.isPrefixOf (c :: rest) then
      match findAnchorFrom ((c :: rest).drop articleLit.length) with
      | some r => some r
      | none => findTeaserHrefL rest
    else findTeaserHrefL rest

/-- The primary extraction strategy on strings. -/
def findTeaserHref (s : String) : Option String :=
  (findTeaserHrefL s.toList).map List.asString

/-- Predicate of `soup.find('article', class_='b-article-teaser')`
(line 97). -/
def isArticleTeaser : HNode → Bool
  | .elem t a _ => t = "article" && hasClass a "b-article-teaser"
  | .txt _ => false

/-- Predicate of `article_teaser.find('a', href=True)` (line 103): an `a`
element carrying an `href` attribute. -/
def isAnchorWithHref : HNode → Bool
  | .elem t a _ => t = "a" && (getAttr a "href").isSome
  | .txt _ => false

/-- The DOM fallback strategy (lines 96-108): first article teaser by class,
first anchor with an `href` inside it, rejected when the href is missing or
empty (the `not episode_link_tag.get('href')` test on line 105). -/
def soupFallbackHref (soup : HForest) : Option String :=
  match findNodeF isArticleTeaser soup with
  | none => none
  | some art =>
    match findNodeF isAnchorWithHref art.childrenOf with
    | none => none
    | some tagA =>
      match getAttr tagA.attrsOf "href" with
      | none => none
      | some h => if h = "" then none else some h

/-- Episode-link extraction (lines 91-110): the primary regex first, the DOM
fallback only when the regex finds nothing; `none` models the
`sys.exit(1)` on line 107. -/
def extractEpisodeHref (html : String) (soup : HForest) : Option String :=
  match findTeaserHref html with
  | some h => some h
  | none => soupFallbackHref soup

/-- URL resolution (lines 113-116): prefix the base origin onto
root-relative hrefs, keep every other href verbatim. -/
def resolveEpisodeUrl (href : String) : String :=
  if pyStartsWith href "/" then BASE_URL ++ href else href

/- ### Metadata extraction (lines 130-170) -/

/-- The metadata record assembled on lines 133-160. -/
structure EpisodeMetadata where
  showTitle : String
  subtitle : String
  description : String
  isoDate : String
  sourceUrl : String

/-- Predicate of `soup.find('span', class_='headline-kicker')`. -/
def isHeadlineKicker : HNode → Bool
  | .elem t a _ => t = "span" && hasClass a "headline-kicker"
  | .txt _ => false

/-- Predicate of `soup.find('span', class_='headline-title')`. -/
def isHeadlineTitle : HNode → Bool
  | .elem t a _ => t = "span" && hasClass a "headline-title"
  | .txt _ => false

/-- Predicate of `soup.find('p', class_='article-header-description')`. -/
def isHeaderDescription : HNode → Bool
  | .elem t a _ => t = "p" && hasClass a "article-header-description"
  | .txt _ => false

/-- Predicate of `soup.find('time')`. -/
def isTimeTag : HNode → Bool
  | .elem t _ _ => t = "time"
  | .txt _ => false

/-- Helper of `collapseWsL`: `skipping` records that the current whitespace
run has already been emitted as a single space, so its remaining characters
are dropped. -/
def collapseGo (skipping : Bool) : List Char → List Char
  | [] => []
  | c :: rest =>
    if pyIsSpace c then
      if skipping then collapseGo true rest
      else
        match rest with
        | [] => [c]
        | d :: _ =>
          if pyIsSpace d then ' ' :: collapseGo true rest
          else c :: collapseGo false rest
    else c :: collapseGo false rest

/-- `re.sub(r'\s{2,}', ' ', s)` (line 144): replace every run of two or
more whitespace characters with a single space; a lone whitespace character
is kept. -/
def collapseWsL (l : List Char) : List Char := collapseGo false l

/-- Whitespace collapsing on strings. -/
def collapseWs (s : String) : String := (collapseWsL s.toList).asString

/-- Date derivation (lines 146-160): text of the first `<time>` element
(stripped; `""` when the element is absent), leftmost `dd.mm.yyyy` match,
`strptime`/`strftime` reformatting, falling back to `today` when the pattern
is absent or parsing raises. -/
def derive_iso_date (soup : HForest) (today : String) : String :=
  let raw :=
    match findNodeF isTimeTag soup with
    | some el => pyStrip el.textOf
    | none => ""
  match findDdMmYyyy raw.toList with
  | some m =>
    match strptime_dmY m with
    | some d => strftime_Ymd d
    | none => today
  | none => today

/-- Metadata extraction (lines 130-170): every field is total, with the
deterministic defaults of the source; `today` stands for
`datetime.now().strftime('%Y-%m-%d')`.  The `try/except` around this block
in the source has no raising operation inside it, which this embedding
reflects by being a total function. -/
def extractMetadata (soup : HForest) (sourceUrl today : String) :
    EpisodeMetadata :=
  let showTitle :=
    match findNodeF isHeadlineKicker soup with
    | some el => pyStrip el.textOf
    | none => "Unbekannter Sendungstitel"
  let subtitle :=
    match findNodeF isHeadlineTitle soup with
    | some el => pyStrip el.textOf
    | none => ""
  let descr :=
    match findNodeF isHeaderDescription soup with
    | some el => pyStrip el.textOf
    | none => ""
  { showTitle := showTitle
    subtitle := subtitle
    description := collapseWs descr
    isoDate := derive_iso_date soup today
    sourceUrl := sourceUrl }

/- ### The effectful skeleton of `main()` (lines 61-269) -/

/-- Observable side effects of a pipeline run. -/
inductive Event where
  | makeDirs (path : String)
  | httpGet (url : String)
  | runTool (exe : String) (args : List String)
  | writeFile (path : String) (content : String)
  | moveFile (src dst : String)
deriving DecidableEq, Repr

/-- The environment of one run: responses of the network, the parser, the
filesystem and the two external tools.  A `none` response models a
`requests.exceptions.RequestException`; the Bool fields fix the exit status
of the tools and the outcome of the filesystem checks and operations. -/
structure World where
  mainPageResponse : Option String
  episodeResponse : String → Option String
  parseHtml : String → HForest
  targetExists : String → Bool
  ytDlpExitOk : Bool
  ytDlpCreatesFile : Bool
  ffmpegExitOk : Bool
  ffmpegCreatesFile : Bool
  writeMetadataOk : Bool
  moveOk : Bool
  makedirsOk : Bool
  today : String
  targetDirContainer : String
  tempDir : String

/-- `os.path.join` for the paths of this script (directory, relative
name). -/
def pathJoin (a b : String) : String := a ++ "/" ++ b

/-- The final filename of line 176: `f"{iso} {safeTitle}.m4a"`. -/
def finalFilenameOf (md : EpisodeMetadata) : String :=
  md.isoDate ++ " " ++ sanitize_filename_component md.showTitle ++ ".m4a"

/-- The target path of line 177, as computed from the episode page markup:
the metadata is extracted from the parsed episode page, the show title is
sanitised, and the name is joined onto the target directory. -/
def targetPathOf (w : World) (ehtml epUrl : String) : String :=
  pathJoin w.targetDirContainer
    (finalFilenameOf (extractMetadata (w.parseHtml ehtml) epUrl w.today))

/-- The descriptor file lines of lines 216-226. -/
def ffmetadataContent (md : EpisodeMetadata) (episodeUrl : String) :
    List String :=
  [";FFMETADATA1",
   "album=Klassik, Pop et cetera",
   "artist=Deutschlandfunk",
   "title=" ++ escape_for_ffmetadata md.showTitle,
   "description=" ++ escape_for_ffmetadata md.subtitle,
   "comment=" ++ escape_for_ffmetadata md.description,
   "date=" ++ escape_for_ffmetadata md.isoDate,
   "copyright=" ++ escape_for_ffmetadata episodeUrl,
   "show=Klassik, Pop et cetera"]

/-- Steps 6-9 of `main()` (lines 194-263): download with `yt-dlp`, write the
descriptor file, remux with `ffmpeg`, move the tagged file to the target.
Each stage checks the tool's exit status and (for the tools) the existence
of its output file, aborting with exit code 1 otherwise. -/
def tagAndPublish (w : World) (md : EpisodeMetadata) (epUrl finalPath : String)
    (ev : List Event) : Nat × List Event :=
  let tempDownload := pathJoin w.tempDir "downloaded_audio_temp.m4a"
  let tempMeta := pathJoin w.tempDir "metadata.txt"
  let tempTagged := pathJoin w.tempDir "tagged_audio_temp.m4a"
  let ev := ev ++ [Event.runTool YT_DLP_EXECUTABLE
    ["-f", "m4a", "--output", tempDownload, epUrl]]
  if w.ytDlpExitOk && w.ytDlpCreatesFile then
    let ev := ev ++ [Event.writeFile tempMeta
      (String.intercalate "\n" (ffmetadataContent md epUrl))]
    if w.writeMetadataOk then
      let ev := ev ++ [Event.runTool FFMPEG_EXECUTABLE
        ["-i", tempDownload, "-i", tempMeta, "-map_metadata", "1",
         "-map", "0:a", "-codec", "copy", "-y", tempTagged]]
      if w.ffmpegExitOk && w.ffmpegCreatesFile then
        let ev := ev ++ [Event.moveFile tempTagged finalPath]
        if w.moveOk then (0, ev) else (1, ev)
      else (1, ev)
    else (1, ev)
  else (1, ev)

/-- The whole of `main()` (lines 61-269) as a trace-producing function:
create the target directory, fetch the listing page, extract and resolve the
episode link, fetch the episode page, extract the metadata, compute the
target path, short-circuit with exit code 0 when the target already exists
(lines 181-187), otherwise download, tag and publish.  The result is the
process exit code paired with the list of side effects, in order. -/
def runPipeline (w : World) : Nat × List Event :=
  let ev := [Event.makeDirs w.targetDirContainer]
  if w.makedirsOk then
    let ev := ev ++ [Event.httpGet MAIN_PAGE_URL]
    match w.mainPageResponse with
    | none => (1, ev)
    | some html =>
      match extractEpisodeHref html (w.parseHtml html) with
      | none => (1, ev)
      | some rel =>
        let epUrl := resolveEpisodeUrl rel
        let ev := ev ++ [Event.httpGet epUrl]
        match w.episodeResponse epUrl with
        | none => (1, ev)
        | some ehtml =>
          let md := extractMetadata (w.parseHtml ehtml) epUrl w.today
          let finalPath := pathJoin w.targetDirContainer (finalFilenameOf md)
          if w.targetExists finalPath then (0, ev)
          else tagAndPublish w md epUrl finalPath ev
  else (1, ev)

/- ### Concrete environments used to exercise the pipeline -/

/-- A concrete listing page on which the primary regex succeeds. -/
def sampleListingHtml : String :=
  "<article class=\"b-article-teaser\"><a href=\"/a-100.html\">"

/-- A concrete environment: the listing page above, an episode page parsed
to the empty soup, no pre-existing target file, and every tool and
filesystem operation succeeding. -/
def sampleWorld : World :=
  { mainPageResponse := some sampleListingHtml
    episodeResponse := fun _ => some "<html>"
    parseHtml := fun _ => HForest.nil
    targetExists := fun _ => false
    ytDlpExitOk := true
    ytDlpCreatesFile := true
    ffmpegExitOk := true
    ffmpegCreatesFile := true
    writeMetadataOk := true
    moveOk := true
    makedirsOk := true
    today := "2024-01-01"
    targetDirContainer := "/mnt/podcasts"
    tempDir := "/tmp/podcast_dl_x" }

/-- The same environment with the target file already present. -/
def sampleWorldExisting : World :=
  { sampleWorld with targetExists := fun _ => true }

/-- The same environment with the downloader exiting non-zero. -/
def sampleWorldYtFail : World :=
  { sampleWorld with ytDlpExitOk := false }

/- ### Helper lemmas about stripping and the sanitiser -/

theorem dropWhile_head_not {p : Char → Bool} :
    ∀ {l : List Char} {c : Char} {t : List Char},
      l.dropWhile p = c :: t → p c = false := by
  intro l
  induction l with
  | nil => intro c t h; simp at h
  | cons a l ih =>
    intro c t h
    rw [List.dropWhile_cons] at h
    by_cases ha : p a
    · exact ih (by simpa [ha] using h)
    · rw [if_neg ha] at h
      injection h with h1 h2
      subst h1
      simpa using ha

theorem dropWhile_eq_self_of_head {p : Char → Bool} :
    ∀ {l : List Char}, (∀ c t, l = c :: t → p c = false) → l.dropWhile p = l := by
  intro l h
  cases l with
  | nil => rfl
  | cons a t => rw [List.dropWhile_cons]; simp [h a t rfl]

theorem pyStripL_idem (l : List Char) : pyStripL (pyStripL l) = pyStripL l := by
  unfold pyStripL
  set a := l.dropWhile pyIsSpace with ha
  set b := a.reverse.dropWhile pyIsSpace with hb
  have hbhead : ∀ c t, b = c :: t → pyIsSpace c = false := by
    intro c t h
    exact dropWhile_head_not (hb.symm.trans h)
  have hrevb : ∀ c t, b.reverse = c :: t → pyIsSpace c = false := by
    intro c t h
    obtain ⟨s, hs⟩ := List.dropWhile_suffix (l := a.reverse) pyIsSpace
    have haeq : a = b.reverse ++ s.reverse := by
      have h2 := congrArg List.reverse hs
      rw [← hb] at h2
      simpa [List.reverse_append] using h2.symm
    have h3 : l.dropWhile pyIsSpace = c :: (t ++ s.reverse) := by
      rw [← ha, haeq, h]; simp
    exact dropWhile_head_not h3
  rw [dropWhile_eq_self_of_head hrevb, List.reverse_reverse,
    dropWhile_eq_self_of_head hbhead]

theorem mem_of_mem_pyStripL {c : Char} {l : List Char}
    (h : c ∈ pyStripL l) : c ∈ l := by
  unfold pyStripL at h
  rw [List.mem_reverse] at h
  have h1 := (List.dropWhile_sublist pyIsSpace).subset h
  rw [List.mem_reverse] at h1
  exact (List.dropWhile_sublist pyIsSpace).subset h1

theorem mapForbidden_eq_map (l : List Char) :
    mapForbidden l = l.map replaceForbidden := by
  unfold mapForbidden
  rw [List.map_map, List.map_map]
  apply List.map_congr_left
  intro c _
  simp only [Function.comp_apply]
  by_cases h1 : forbiddenChar c = true
  · have e1 : ('_' : Char) ≠ '\n' := by decide
    have e2 : ('_' : Char) ≠ '\r' := by decide
    simp [h1, e1, e2, replaceForbidden, forbiddenFull]
  · by_cases h2 : c = '\n'
    · subst h2; decide
    · by_cases h3 : c = '\r'
      · subst h3; decide
      · simp [h1, h2, h3, replaceForbidden, forbiddenFull]

theorem replaceForbidden_not_forbidden (c : Char) :
    forbiddenFull (replaceForbidden c) = false := by
  unfold replaceForbidden
  by_cases h : forbiddenFull c = true
  · simp only [h, if_true]; decide
  · have h' : forbiddenFull c = false := by simpa using h
    simp [h']

theorem replaceForbidden_idem (c : Char) :
    replaceForbidden (replaceForbidden c) = replaceForbidden c := by
  have h := replaceForbidden_not_forbidden c
  by_cases h1 : forbiddenFull c = true
  · unfold replaceForbidden at h ⊢
    simp only [h1, if_true] at h ⊢
    have h2 : forbiddenFull '_' = false := by decide
    simp [h2]
  · unfold replaceForbidden
    simp [h1]

theorem sanitizeL_idem (l : List Char) : sanitizeL (sanitizeL l) = sanitizeL l := by
  unfold sanitizeL
  rw [mapForbidden_eq_map, mapForbidden_eq_map]
  have hfix : ∀ c ∈ pyStripL (l.map replaceForbidden),
      replaceForbidden c = c := by
    intro c hc
    have hc' : c ∈ l.map replaceForbidden := mem_of_mem_pyStripL hc
    obtain ⟨c0, _, rfl⟩ := List.mem_map.1 hc'
    exact replaceForbidden_idem c0
  rw [List.map_congr_left hfix, List.map_id']
  exact pyStripL_idem _

theorem sanitizeL_no_forbidden {c : Char} {l : List Char}
    (h : c ∈ sanitizeL l) : forbiddenFull c = false := by
  unfold sanitizeL at h
  rw [mapForbidden_eq_map] at h
  obtain ⟨c0, _, rfl⟩ := List.mem_map.1 (mem_of_mem_pyStripL h)
  exact replaceForbidden_not_forbidden c0

/- ### C10 -/

/-- C10: the filename sanitiser is idempotent — for every string `s`,
`sanitize(sanitize(s)) = sanitize(s)`; the replacement character `'_'` is
not forbidden and trimming is idempotent. -/
theorem C10_sanitize_idempotent (s : String) :
    sanitize_filename_component (sanitize_filename_component s) =
      sanitize_filename_component s := by
  unfold sanitize_filename_component
  rw [List.toList_asString, sanitizeL_idem]

/- ### C4 -/

/-- C4, as stated, is false: the trailing `strip()` of
`sanitize_filename_component` can shorten the result.  The input `" /"`
contains the forbidden character `'/'`, yet the result `"_"` has length 1,
not 2. -/
theorem C4_counterexample :
    (" /".toList.any forbiddenFull = true) ∧
    sanitize_filename_component " /" = "_" ∧
    ¬ (sanitize_filename_component " /").length = (" /" : String).length := by
  refine ⟨by decide, by decide, by decide⟩

/-- C4 amended: for every input, the sanitised result contains none of the
forbidden characters; the replacement phase maps each forbidden character to
exactly one `'_'` and preserves length; the final trim is the only step that
can change the length, so the overall length is preserved exactly when the
trim is a no-op on the replaced string (for instance when the input has no
leading or trailing whitespace). -/
theorem C4_sanitize_safety (s : String) :
    ((sanitize_filename_component s).toList.all
      (fun c => !forbiddenFull c) = true) ∧
    (mapForbidden s.toList = s.toList.map replaceForbidden ∧
      (mapForbidden s.toList).length = s.toList.length) ∧
    (pyStripL (mapForbidden s.toList) = mapForbidden s.toList →
      (sanitize_filename_component s).length = s.length) := by
  refine ⟨?_, ⟨mapForbidden_eq_map _, ?_⟩, ?_⟩
  · rw [List.all_eq_true]
    intro c hc
    unfold sanitize_filename_component at hc
    rw [List.toList_asString] at hc
    simp [sanitizeL_no_forbidden hc]
  · rw [mapForbidden_eq_map]; simp
  · intro htrim
    unfold sanitize_filename_component sanitizeL
    rw [List.length_asString, htrim, mapForbidden_eq_map, List.length_map]
    rfl

/-- Witness for C4: at the input `"a/b:c"` (no surrounding whitespace) the
trim is a no-op, the result has no forbidden characters, and the length is
preserved. -/
theorem C4_sanitize_safety_witness :
    ((sanitize_filename_component "a/b:c").toList.all
      (fun c => !forbiddenFull c) = true) ∧
    (sanitize_filename_component "a/b:c").length = ("a/b:c" : String).length :=
  ⟨(C4_sanitize_safety "a/b:c").1, (C4_sanitize_safety "a/b:c").2.2 (by decide)⟩

/- ### Helper lemmas about the FFMETADATA escaping -/

theorem escapeFfmetadataL_nil : escapeFfmetadataL [] = [] := rfl

theorem escapeFfmetadataL_cons (c : Char) (l : List Char) :
    escapeFfmetadataL (c :: l) = escChar c ++ escapeFfmetadataL l := by
  by_cases h1 : c = '\\'
  · subst h1
    simp [escapeFfmetadataL, pyReplaceChar, escChar]
  · by_cases h2 : c = '\n'
    · subst h2
      simp [escapeFfmetadataL, pyReplaceChar, escChar]
    · by_cases h3 : c = '\r'
      · subst h3
        simp [escapeFfmetadataL, pyReplaceChar, escChar]
      · by_cases h4 : c = '='
        · subst h4
          simp [escapeFfmetadataL, pyReplaceChar, escChar]
        · simp [escapeFfmetadataL, pyReplaceChar, escChar, h1, h2, h3, h4]

theorem escapeFfmetadataL_eq_nil {l : List Char}
    (h : escapeFfmetadataL l = []) : l = [] := by
  cases l with
  | nil => rfl
  | cons c t =>
    rw [escapeFfmetadataL_cons] at h
    have : escChar c ≠ [] := by
      unfold escChar
      by_cases h1 : c = '\\' <;> by_cases h2 : c = '\n' <;>
        by_cases h3 : c = '\r' <;> by_cases h4 : c = '=' <;>
        simp [h1, h2, h3, h4]
    exact absurd (List.append_eq_nil.1 h).1 this

theorem unescape_escapeFfmetadataL (l : List Char) :
    unescapeFfmetadataL (escapeFfmetadataL l) = l := by
  induction l with
  | nil => rfl
  | cons c t ih =>
    rw [escapeFfmetadataL_cons]
    by_cases h1 : c = '\\'
    · subst h1
      simpa [escChar, unescapeFfmetadataL] using ih
    · by_cases h2 : c = '\n'
      · subst h2
        simpa [escChar, unescapeFfmetadataL] using ih
      · by_cases h3 : c = '\r'
        · subst h3
          simpa [escChar, unescapeFfmetadataL] using ih
        · by_cases h4 : c = '='
          · subst h4
            simpa [escChar, unescapeFfmetadataL] using ih
          · rw [show escChar c = [c] from by simp [escChar, h1, h2, h3, h4]]
            cases he : escapeFfmetadataL t with
            | nil =>
              rw [escapeFfmetadataL_eq_nil he]
              rfl
            | cons d r =>
              rw [he] at ih
              simp only [List.cons_append, List.nil_append]
              rw [show unescapeFfmetadataL (c :: d :: r) =
                  c :: unescapeFfmetadataL (d :: r) from by
                simp [unescapeFfmetadataL, h1]]
              rw [ih]

/- ### C5 -/

/-- C5: the descriptor-value escaping applies the four replacements
backslash, newline, carriage return and `=` in that fixed order (this is the
definition of `escapeFfmetadataL`), and the fixed reverse mapping
`unescape_ffmetadata` recovers every original string exactly; in particular
a value containing `=`, `\`, and a newline round-trips. -/
theorem C5_escape_roundtrip :
    (∀ s : String, unescape_ffmetadata (escape_for_ffmetadata s) = s) ∧
    escape_for_ffmetadata "t=a\\b\nc" = "t\\=a\\\\b\\nc" ∧
    unescape_ffmetadata "t\\=a\\\\b\\nc" = "t=a\\b\nc" := by
  refine ⟨?_, by decide, by decide⟩
  intro s
  unfold unescape_ffmetadata escape_for_ffmetadata
  rw [List.toList_asString, unescape_escapeFfmetadataL, String.asString_toList]

/- ### C6 -/

/-- C6: a root-relative href (starting with `/`) resolves to the fixed base
origin concatenated with the href; every other href is used verbatim. -/
theorem C6_link_resolution (href : String) :
    (pyStartsWith href "/" = true → resolveEpisodeUrl href = BASE_URL ++ href) ∧
    (pyStartsWith href "/" = false → resolveEpisodeUrl href = href) ∧
    resolveEpisodeUrl "/sendung/foo-100.html" =
      "https://www.deutschlandfunk.de/sendung/foo-100.html" ∧
    resolveEpisodeUrl "https://example.org/a.html" =
      "https://example.org/a.html" := by
  refine ⟨fun h => ?_, fun h => ?_, by decide, by decide⟩
  · simp [resolveEpisodeUrl, h]
  · simp [resolveEpisodeUrl, h]

/-- Witness for C6: the concrete root-relative href of the spec example. -/
theorem C6_link_resolution_witness :
    pyStartsWith "/sendung/foo-100.html" "/" = true ∧
    resolveEpisodeUrl "/sendung/foo-100.html" =
      BASE_URL ++ "/sendung/foo-100.html" :=
  ⟨by decide, (C6_link_resolution "/sendung/foo-100.html").1 (by decide)⟩

/- ### C3 -/

/-- C3, as stated, is false: the code reformats only the FIRST
`dd.mm.yyyy` pattern match of the `<time>` text.  The text
`"99.99.9999 15.03.2024"` contains the substring `"15.03.2024"`, which
parses as a valid calendar date, so the claim demands `"2024-03-15"`; but
the first pattern match is `"99.99.9999"`, whose parsing fails, so the code
falls back to the current date (here `"2025-12-31"`). -/
theorem C3_counterexample :
    containsValidDdMmYyyy
      (pyStrip (HNode.textOf
        (HNode.elem "time" [] (HForest.ofList [HNode.txt "99.99.9999 15.03.2024"])))).toList
      = true ∧
    derive_iso_date
      (HForest.ofList [HNode.elem "time" [] (HForest.ofList [HNode.txt "99.99.9999 15.03.2024"])])
      "2025-12-31" = "2025-12-31" ∧
    ("2025-12-31" : String) ≠ "2024-03-15" := by
  refine ⟨by decide, by decide, by decide⟩

/-- C3 amended: `isoDate` is keyed on the FIRST `dd.mm.yyyy` pattern match
of the first `<time>` element's stripped text — if that first match parses
as a valid calendar date it is reformatted to `yyyy-mm-dd` (so
`"15.03.2024"` yields `"2024-03-15"`); if no `<time>` element exists, or no
`dd.mm.yyyy` substring is found, or the first matched substring fails
calendar parsing (as with `"31.02.2024"`), `isoDate` is the current date;
and no branch crashes (the derivation is a total function). -/
theorem C3_iso_date (soup : HForest) (today : String) :
    (findNodeF isTimeTag soup = none →
      derive_iso_date soup today = today) ∧
    (∀ el, findNodeF isTimeTag soup = some el →
      (findDdMmYyyy (pyStrip el.textOf).toList = none →
        derive_iso_date soup today = today) ∧
      (∀ m, findDdMmYyyy (pyStrip el.textOf).toList = some m →
        (strptime_dmY m = none → derive_iso_date soup today = today) ∧
        (∀ d, strptime_dmY m = some d →
          derive_iso_date soup today = strftime_Ymd d))) ∧
    derive_iso_date (HForest.ofList [HNode.elem "time" [] (HForest.ofList [HNode.txt "15.03.2024"])]) today =
      "2024-03-15" ∧
    derive_iso_date (HForest.ofList [HNode.elem "time" [] (HForest.ofList [HNode.txt "31.02.2024"])]) today =
      today := by
  refine ⟨?_, ?_, rfl, rfl⟩
  · intro h
    simp [derive_iso_date, h, pyStrip, pyStripL, findDdMmYyyy]
  · intro el hel
    have hconv : ∀ r : Option (List Char),
        findDdMmYyyy (pyStrip el.textOf).toList = r →
        findDdMmYyyy (pyStrip el.textOf).data = r := fun _ h => h
    refine ⟨?_, ?_⟩
    · intro h
      simp [derive_iso_date, hel, hconv _ h]
    · intro m hm
      refine ⟨?_, ?_⟩
      · intro h
        simp [derive_iso_date, hel, hconv _ hm, h]
      · intro d hd
        simp [derive_iso_date, hel, hconv _ hm, hd]

/-- Witness for C3: the date-success branch at the concrete `<time>` text
`"15.03.2024"`. -/
theorem C3_iso_date_witness :
    derive_iso_date (HForest.ofList [HNode.elem "time" [] (HForest.ofList [HNode.txt "15.03.2024"])])
      "2025-12-31" = strftime_Ymd (2024, 3, 15) :=
  ((((C3_iso_date (HForest.ofList [HNode.elem "time" [] (HForest.ofList [HNode.txt "15.03.2024"])])
    "2025-12-31").2.1 (HNode.elem "time" [] (HForest.ofList [HNode.txt "15.03.2024"]))
    rfl).2 ("15.03.2024".toList) rfl).2 (2024, 3, 15) rfl)

/- ### C9 -/

/-- C9: metadata extraction is a total function of the episode markup —
every field has a deterministic default when its source element is absent
(`showTitle` defaults to `"Unbekannter Sendungstitel"`, `subtitle` and
`description` to the empty string, `isoDate` to the current date), the
source URL is passed through unchanged, and when the elements are present
the fields are the stripped texts; hence the fatal error branch around the
extraction (lines 168-170) is unreachable. -/
theorem C9_metadata_total_defaults (soup : HForest) (url today : String) :
    (findNodeF isHeadlineKicker soup = none →
      (extractMetadata soup url today).showTitle =
        "Unbekannter Sendungstitel") ∧
    (∀ el, findNodeF isHeadlineKicker soup = some el →
      (extractMetadata soup url today).showTitle = pyStrip el.textOf) ∧
    (findNodeF isHeadlineTitle soup = none →
      (extractMetadata soup url today).subtitle = "") ∧
    (findNodeF isHeaderDescription soup = none →
      (extractMetadata soup url today).description = "") ∧
    (findNodeF isTimeTag soup = none →
      (extractMetadata soup url today).isoDate = today) ∧
    (extractMetadata soup url today).sourceUrl = url := by
  refine ⟨?_, ?_, ?_, ?_, ?_, rfl⟩
  · intro h; simp [extractMetadata, h]
  · intro el h; simp [extractMetadata, h]
  · intro h; simp [extractMetadata, h]
  · intro h
    simp [extractMetadata, h]
    decide
  · intro h
    simp [extractMetadata, derive_iso_date, h, pyStrip, pyStripL, findDdMmYyyy]

/-- Witness for C9: the empty episode markup yields every default. -/
theorem C9_metadata_total_defaults_witness :
    (extractMetadata HForest.nil "https://e.example/x" "2025-12-31").showTitle =
      "Unbekannter Sendungstitel" ∧
    (extractMetadata HForest.nil "https://e.example/x" "2025-12-31").subtitle = "" ∧
    (extractMetadata HForest.nil "https://e.example/x" "2025-12-31").description = "" ∧
    (extractMetadata HForest.nil "https://e.example/x" "2025-12-31").isoDate =
      "2025-12-31" ∧
    (extractMetadata HForest.nil "https://e.example/x" "2025-12-31").sourceUrl =
      "https://e.example/x" :=
  ⟨(C9_metadata_total_defaults HForest.nil "https://e.example/x" "2025-12-31").1 rfl,
   (C9_metadata_total_defaults HForest.nil "https://e.example/x" "2025-12-31").2.2.1 rfl,
   (C9_metadata_total_defaults HForest.nil "https://e.example/x" "2025-12-31").2.2.2.1
     rfl,
   (C9_metadata_total_defaults HForest.nil "https://e.example/x"
     "2025-12-31").2.2.2.2.1 rfl,
   (C9_metadata_total_defaults HForest.nil "https://e.example/x"
     "2025-12-31").2.2.2.2.2⟩

/- ### Helper lemmas about the link extraction -/

theorem matchAnchorAt_ne_nil {l r : List Char}
    (h : matchAnchorAt l = some r) : r ≠ [] := by
  unfold matchAnchorAt at h
  split at h
  · dsimp only at h
    split at h
    · split at h
      · simp at h
      · rename_i hrun
        injection h with h1
        subst h1
        simpa using hrun
    · simp at h
  · simp at h

theorem findAnchorFrom_ne_nil :
    ∀ {l r : List Char}, findAnchorFrom l = some r → r ≠ [] := by
  intro l
  induction l with
  | nil => intro r h; simp [findAnchorFrom] at h
  | cons c rest ih =>
    intro r h
    rw [findAnchorFrom] at h
    cases hm : matchAnchorAt (c :: rest) with
    | some v =>
      rw [hm] at h
      injection h with h1
      subst h1
      exact matchAnchorAt_ne_nil hm
    | none =>
      rw [hm] at h
      exact ih h

theorem findTeaserHrefL_ne_nil :
    ∀ {l r : List Char}, findTeaserHrefL l = some r → r ≠ [] := by
  intro l
  induction l with
  | nil => intro r h; simp [findTeaserHrefL] at h
  | cons c rest ih =>
    intro r h
    rw [findTeaserHrefL] at h
    split at h
    · cases ha : findAnchorFrom ((c :: rest).drop articleLit.length) with
      | some v =>
        rw [ha] at h
        injection h with h1
        subst h1
        exact findAnchorFrom_ne_nil ha
      | none =>
        rw [ha] at h
        exact ih h
    · exact ih h

theorem findTeaserHref_ne_empty {s : String} {h : String}
    (hf : findTeaserHref s = some h) : h ≠ "" := by
  unfold findTeaserHref at hf
  cases hl : findTeaserHrefL s.toList with
  | none => rw [hl] at hf; simp at hf
  | some r =>
    rw [hl] at hf
    have hf' : r.asString = h := by simpa using hf
    have hr : r ≠ [] := findTeaserHrefL_ne_nil hl
    intro hc
    rw [hc] at hf'
    exact hr (by simpa using congrArg String.toList hf')

theorem soupFallbackHref_ne_empty {soup : HForest} {h : String}
    (hs : soupFallbackHref soup = some h) : h ≠ "" := by
  unfold soupFallbackHref at hs
  split at hs
  · simp at hs
  · split at hs
    · simp at hs
    · split at hs
      · simp at hs
      · split at hs
        · simp at hs
        · rename_i hne
          injection hs with h1
          subst h1
          exact hne

/- ### C7 -/

/-- C7: link extraction applies the primary multi-line pattern first (when
it matches, the DOM is not consulted at all); only when it finds no match is
the DOM fallback used; the extraction yields `none` — on which the process
exits with code 1 — exactly when neither strategy yields a non-empty href;
and every extracted href is non-empty. -/
theorem C7_extraction_order (html : String) (soup : HForest) :
    (∀ h, findTeaserHref html = some h → extractEpisodeHref html soup = some h) ∧
    (findTeaserHref html = none →
      extractEpisodeHref html soup = soupFallbackHref soup) ∧
    (extractEpisodeHref html soup = none ↔
      findTeaserHref html = none ∧ soupFallbackHref soup = none) ∧
    (∀ h, extractEpisodeHref html soup = some h → h ≠ "") ∧
    (∀ w : World, w.makedirsOk = true → w.mainPageResponse = some html →
      w.parseHtml html = soup → extractEpisodeHref html soup = none →
      (runPipeline w).1 = 1) := by
  refine ⟨?_, ?_, ?_, ?_, ?_⟩
  · intro h hp
    simp [extractEpisodeHref, hp]
  · intro hp
    simp [extractEpisodeHref, hp]
  · constructor
    · intro he
      cases hp : findTeaserHref html with
      | some v => simp [extractEpisodeHref, hp] at he
      | none => exact ⟨rfl, by simpa [extractEpisodeHref, hp] using he⟩
    · rintro ⟨h1, h2⟩
      simp [extractEpisodeHref, h1, h2]
  · intro h he
    cases hp : findTeaserHref html with
    | some v =>
      have hv : v = h := by simpa [extractEpisodeHref, hp] using he
      subst hv
      exact findTeaserHref_ne_empty hp
    | none =>
      have h2 : soupFallbackHref soup = some h := by
        simpa [extractEpisodeHref, hp] using he
      exact soupFallbackHref_ne_empty h2
  · intro w hmk hmain hparse hnone
    subst hparse
    simp [runPipeline, hmk, hmain, hnone]

/-- Witness for C7: on a listing page whose teaser block the primary regex
matches, the extraction returns that href whatever the DOM holds. -/
theorem C7_extraction_order_witness :
    extractEpisodeHref
      "<article class=\"b-article-teaser\"><a href=\"/a-100.html\">"
      HForest.nil = some "/a-100.html" :=
  (C7_extraction_order
    "<article class=\"b-article-teaser\"><a href=\"/a-100.html\">"
    HForest.nil).1 "/a-100.html" (by decide)

/- ### C1 -/

/-- C1: when the computed target file already exists at the idempotency
check (lines 181-187), the pipeline exits with code 0 and its whole trace is
the directory creation and the two page fetches — no further network
request, no `yt-dlp` invocation, no `ffmpeg` invocation, no descriptor file
written, no file moved. -/
theorem C1_skip_when_published (w : World) (html rel ehtml : String)
    (hmk : w.makedirsOk = true)
    (hmain : w.mainPageResponse = some html)
    (hrel : extractEpisodeHref html (w.parseHtml html) = some rel)
    (heps : w.episodeResponse (resolveEpisodeUrl rel) = some ehtml)
    (hex : w.targetExists (targetPathOf w ehtml (resolveEpisodeUrl rel)) =
      true) :
    runPipeline w =
      (0, [Event.makeDirs w.targetDirContainer, Event.httpGet MAIN_PAGE_URL,
           Event.httpGet (resolveEpisodeUrl rel)]) := by
  have hex' : w.targetExists (pathJoin w.targetDirContainer
      (finalFilenameOf (extractMetadata (w.parseHtml ehtml)
        (resolveEpisodeUrl rel) w.today))) = true := hex
  simp [runPipeline, hmk, hmain, hrel, heps, hex']

/-- Witness for C1: in the concrete environment with the target present the
run exits 0 after exactly the two fetches. -/
theorem C1_skip_when_published_witness :
    runPipeline sampleWorldExisting =
      (0, [Event.makeDirs "/mnt/podcasts", Event.httpGet MAIN_PAGE_URL,
           Event.httpGet "https://www.deutschlandfunk.de/a-100.html"]) :=
  C1_skip_when_published sampleWorldExisting sampleListingHtml "/a-100.html"
    "<html>" rfl rfl (by decide) rfl (by decide)

/- ### C2 -/

theorem tagAndPublish_move_mem {w : World} {md : EpisodeMetadata}
    {epUrl finalPath : String} {ev : List Event} {src dst : String}
    (h : Event.moveFile src dst ∈
      (tagAndPublish w md epUrl finalPath ev).2) :
    Event.moveFile src dst ∈ ev ∨ dst = finalPath := by
  by_cases h1 : (w.ytDlpExitOk && w.ytDlpCreatesFile) = true
  · by_cases h2 : w.writeMetadataOk = true
    · by_cases h3 : (w.ffmpegExitOk && w.ffmpegCreatesFile) = true
      · by_cases h4 : w.moveOk = true
        · simp [tagAndPublish, h1, h2, h3, h4] at h
          rcases h with h | h
          · exact Or.inl h
          · exact Or.inr h.2
        · simp [tagAndPublish, h1, h2, h3, h4] at h
          rcases h with h | h
          · exact Or.inl h
          · exact Or.inr h.2
      · simp [tagAndPublish, h1, h2, h3] at h
        exact Or.inl h
    · simp [tagAndPublish, h1, h2] at h
      exact Or.inl h
  · simp [tagAndPublish, h1] at h
    exact Or.inl h

/-- C2: a file already present at the target path is never overwritten —
every relocation event in any run's trace has a destination whose existence
check returned false; the only other write in a run goes to the scratch
descriptor file, never to the target. -/
theorem C2_never_overwrite (w : World) :
    (∀ src dst, Event.moveFile src dst ∈ (runPipeline w).2 →
      w.targetExists dst = false) ∧
    (∀ p c, Event.writeFile p c ∈ (runPipeline w).2 →
      p = pathJoin w.tempDir "metadata.txt") := by
  have main : ∀ src dst, Event.moveFile src dst ∈ (runPipeline w).2 →
      w.targetExists dst = false := by
    intro src dst hmem
    by_cases hmk : w.makedirsOk = true
    · rcases hmain : w.mainPageResponse with _ | html
      · simp [runPipeline, hmk, hmain] at hmem
      · rcases hrel : extractEpisodeHref html (w.parseHtml html) with _ | rel
        · simp [runPipeline, hmk, hmain, hrel] at hmem
        · rcases heps : w.episodeResponse (resolveEpisodeUrl rel) with _ | ehtml
          · simp [runPipeline, hmk, hmain, hrel, heps] at hmem
          · by_cases hex : w.targetExists (pathJoin w.targetDirContainer
                (finalFilenameOf (extractMetadata (w.parseHtml ehtml)
                  (resolveEpisodeUrl rel) w.today))) = true
            · simp [runPipeline, hmk, hmain, hrel, heps, hex] at hmem
            · simp [runPipeline, hmk, hmain, hrel, heps, hex] at hmem
              rcases tagAndPublish_move_mem hmem with h | h
              · simp at h
              · subst h
                simpa using hex
    · simp [runPipeline, hmk] at hmem
  have wrt : ∀ p c, Event.writeFile p c ∈ (runPipeline w).2 →
      p = pathJoin w.tempDir "metadata.txt" := by
    intro p c hmem
    by_cases hmk : w.makedirsOk = true
    · rcases hmain : w.mainPageResponse with _ | html
      · simp [runPipeline, hmk, hmain] at hmem
      · rcases hrel : extractEpisodeHref html (w.parseHtml html) with _ | rel
        · simp [runPipeline, hmk, hmain, hrel] at hmem
        · rcases heps : w.episodeResponse (resolveEpisodeUrl rel) with _ | ehtml
          · simp [runPipeline, hmk, hmain, hrel, heps] at hmem
          · by_cases hex : w.targetExists (pathJoin w.targetDirContainer
                (finalFilenameOf (extractMetadata (w.parseHtml ehtml)
                  (resolveEpisodeUrl rel) w.today))) = true
            · simp [runPipeline, hmk, hmain, hrel, heps, hex] at hmem
            · simp [runPipeline, hmk, hmain, hrel, heps, hex] at hmem
              by_cases h1 : (w.ytDlpExitOk && w.ytDlpCreatesFile) = true
              · by_cases h2 : w.writeMetadataOk = true
                · by_cases h3 : (w.ffmpegExitOk && w.ffmpegCreatesFile) = true
                  · by_cases h4 : w.moveOk = true
                    · simp [tagAndPublish, h1, h2, h3, h4] at hmem
                      exact hmem.1
                    · simp [tagAndPublish, h1, h2, h3, h4] at hmem
                      exact hmem.1
                  · simp [tagAndPublish, h1, h2, h3] at hmem
                    exact hmem.1
                · simp [tagAndPublish, h1, h2] at hmem
                  exact hmem.1
              · simp [tagAndPublish, h1] at hmem
    · simp [runPipeline, hmk] at hmem
  exact ⟨main, wrt⟩

/-- Witness for C2: in the concrete successful run, the trace contains the
relocation of the tagged artifact, and the destination's existence check
returned false. -/
theorem C2_never_overwrite_witness :
    Event.moveFile "/tmp/podcast_dl_x/tagged_audio_temp.m4a"
      "/mnt/podcasts/2024-01-01 Unbekannter Sendungstitel.m4a" ∈
      (runPipeline sampleWorld).2 ∧
    sampleWorld.targetExists
      "/mnt/podcasts/2024-01-01 Unbekannter Sendungstitel.m4a" = false :=
  ⟨by decide,
   (C2_never_overwrite sampleWorld).1
     "/tmp/podcast_dl_x/tagged_audio_temp.m4a"
     "/mnt/podcasts/2024-01-01 Unbekannter Sendungstitel.m4a" (by decide)⟩

/- ### C8 -/

/-- C8: both external-tool stages succeed only with a zero exit status AND
the expected output file present — if the downloader stage fails either
condition the run exits 1 without ever invoking the remuxer, and if the
remuxer stage fails either condition the run exits 1. -/
theorem C8_tool_checks (w : World) (html rel ehtml : String)
    (hmk : w.makedirsOk = true)
    (hmain : w.mainPageResponse = some html)
    (hrel : extractEpisodeHref html (w.parseHtml html) = some rel)
    (heps : w.episodeResponse (resolveEpisodeUrl rel) = some ehtml)
    (hnex : w.targetExists (targetPathOf w ehtml (resolveEpisodeUrl rel)) =
      false) :
    ((w.ytDlpExitOk && w.ytDlpCreatesFile) = false →
      (runPipeline w).1 = 1 ∧
      ∀ args, Event.runTool FFMPEG_EXECUTABLE args ∉ (runPipeline w).2) ∧
    ((w.ytDlpExitOk && w.ytDlpCreatesFile) = true →
      w.writeMetadataOk = true →
      (w.ffmpegExitOk && w.ffmpegCreatesFile) = false →
      (runPipeline w).1 = 1) := by
  have hnex' : w.targetExists (pathJoin w.targetDirContainer
      (finalFilenameOf (extractMetadata (w.parseHtml ehtml)
        (resolveEpisodeUrl rel) w.today))) = false := hnex
  have hne : ("ffmpeg" : String) ≠ "yt-dlp" := by decide
  constructor
  · intro hyt
    constructor
    · simp [runPipeline, hmk, hmain, hrel, heps, hnex', tagAndPublish, hyt]
    · intro args
      simp [runPipeline, hmk, hmain, hrel, heps, hnex', tagAndPublish, hyt,
        YT_DLP_EXECUTABLE, FFMPEG_EXECUTABLE, hne]
  · intro hyt hwm hff
    simp [runPipeline, hmk, hmain, hrel, heps, hnex', tagAndPublish, hyt,
      hwm, hff]

/-- Witness for C8: in the concrete environment whose downloader exits
non-zero, the run exits 1. -/
theorem C8_tool_checks_witness : (runPipeline sampleWorldYtFail).1 = 1 :=
  ((C8_tool_checks sampleWorldYtFail sampleListingHtml "/a-100.html" "<html>"
    rfl rfl (by decide) rfl (by decide)).1 (by decide)).1
